import Mathlib

/-!
Verification development for the GitLite client (a browser GitHub client).

The definitions below are a shallow embedding of the repository's code:

* `src/services/github.ts` — the stateless API client (`githubFetch` error
  normalization, `getContents` path cleaning, `createFile` / `deleteFile`
  request shapes, and the `toBase64` helper with its padding fix-up);
* `src/components/FileExplorer.tsx` — the repository browser
  (`fetchContents` listing sort, `handleFileUpload` sequential upload loop,
  `handleDelete` state transitions, the base64 decode path of
  `handleEntryClick`);
* `src/components/RepoList.tsx` — the repository-name whitespace
  sanitizer on the creation form;
* `src/App.tsx` — `handleCreateRepo` prepending the created repository.

JavaScript strings are modelled as `String` (inspected at the UTF-16
code-unit level via their `List Char` data), bytes as `Nat` values below
256, and the browser built-ins `atob` / `FileReader.readAsDataURL` as
the standard base64 maps they implement. Remote calls are modelled by
passing the remote's response (or the remote itself, as a function)
explicitly. `String.prototype.localeCompare` is locale-aware ICU
collation, not fixed by the source: it is modelled as an explicit
comparator parameter, with concrete collations (a case-aware one and the
raw code-point one) instantiated where a concrete order is examined.
-/

namespace GitLite

/-! ## Data model (src/types.ts) -/

/-- The entry kind union type `'file' | 'dir'` of `FileEntry.type`. -/
inductive EntryType where
  | file : EntryType
  | dir : EntryType
deriving DecidableEq, Repr

/-- One node of a remote path listing (`FileEntry` in `src/types.ts`);
`content` is the optional inline base64 payload. -/
structure FileEntry where
  name : String
  path : String
  sha : String
  size : Nat
  type : EntryType
  content : Option String
deriving DecidableEq, Repr

/-- A repository snapshot (`Repository` in `src/types.ts`), restricted to
the fields the verified code paths read. -/
structure Repository where
  id : Nat
  name : String
  full_name : String
  «private» : Bool
  description : Option String
deriving DecidableEq, Repr

/-- Body of `POST /user/repos` (`CreateRepoParams` in `src/types.ts`). -/
structure CreateRepoParams where
  name : String
  «private» : Bool
  description : Option String
  auto_init : Option Bool
deriving DecidableEq, Repr

/-- Body and target of a `PUT contents` call (`CommitParams` in
`src/types.ts`, minus the owner/repo routing fields, with the base64
content kept as a character list). -/
structure CommitParams where
  path : String
  message : String
  content : List Char
deriving DecidableEq, Repr

/-! ## githubFetch error normalization (src/services/github.ts, lines 10-32) -/

/-- An HTTP response as `githubFetch` inspects it: `ok`/`status` from the
fetch response, `jsonMessage` the `message` field of the parsed JSON body
(`none` when the body is unparseable — the `.catch(() => ({}))` branch — or
the field is absent), `body` the successful-response payload. -/
structure HttpResponse where
  ok : Bool
  status : Nat
  jsonMessage : Option String
  body : Option String
deriving DecidableEq, Repr

/-- The thrown error message of `githubFetch`:
`errorData.message || ` `GitHub API Error: ${response.status}` ``, where a
missing or empty (JS-falsy) `message` falls back to the generic string. -/
def githubErrorMessage (resp : HttpResponse) : String :=
  match resp.jsonMessage with
  | some m => if m = "" then "GitHub API Error: " ++ toString resp.status else m
  | none => "GitHub API Error: " ++ toString resp.status

/-- The result of `githubFetch` on a given response: throws (`Except.error`)
the normalized message on any non-ok response, returns `none` (JS `null`)
on 204 No Content, and otherwise the JSON body. -/
def githubFetch (resp : HttpResponse) : Except String (Option String) :=
  if !resp.ok then Except.error (githubErrorMessage resp)
  else if resp.status = 204 then Except.ok none
  else Except.ok resp.body

/-! ## getContents path cleaning (src/services/github.ts, lines 47-50) -/

/-- Character-level core of
`path.startsWith('/') ? path.slice(1) : path`. -/
def cleanPathChars : List Char → List Char
  | '/' :: rest => rest
  | p => p

/-- The `cleanPath` local of `getContents`: strips one leading slash. -/
def cleanPath (path : String) : String := ⟨cleanPathChars path.data⟩

/-- The endpoint string `getContents` dispatches:
`/repos/${owner}/${repo}/contents/${cleanPath}`. -/
def getContentsEndpoint (owner repo path : String) : String :=
  "/repos/" ++ owner ++ "/" ++ repo ++ "/contents/" ++ cleanPath path

/-! ## Repository-name sanitizer (src/components/RepoList.tsx, line 186) -/

/-- The whitespace class matched by the JavaScript regex `\s`. -/
def jsWhitespace : List Char :=
  [' ', '\t', '\n', '\x0b', '\x0c', '\r', ' ', ' ',
   ' ', ' ', ' ', ' ', ' ', ' ', ' ',
   ' ', ' ', ' ', ' ', ' ', ' ', ' ',
   ' ', '　', '﻿']

/-- Membership test for the JS `\s` class. -/
def isJsWs (c : Char) : Bool := jsWhitespace.contains c

/-- Character-level core of `value.replace(/\s+/g, '-')`: the flag records
whether the previous character was whitespace, so each maximal whitespace
run emits exactly one hyphen. -/
def collapseWsAux : Bool → List Char → List Char
  | _, [] => []
  | prevWs, c :: rest =>
    if isJsWs c then
      (if prevWs then [] else ['-']) ++ collapseWsAux true rest
    else c :: collapseWsAux false rest

/-- The repository-name field sanitizer of `RepoList`:
`e.target.value.replace(/\s+/g, '-')`. -/
def sanitizeRepoName (s : String) : String := ⟨collapseWsAux false s.data⟩

/-! ## toBase64 and the client decode path
(src/services/github.ts, lines 79-92; src/components/FileExplorer.tsx,
lines 74-86) -/

/-- The base64 alphabet, index 0 to 63. -/
def b64Alphabet : List Char :=
  "ABCDEFGHIJKLMNOPQRSTUVWXYZabcdefghijklmnopqrstuvwxyz0123456789+/".data

/-- The base64 digit for a 6-bit value. -/
def b64Char (n : Nat) : Char := b64Alphabet.getD n 'A'

/-- Index of a character in the base64 alphabet (`none` for a
non-alphabet character), as a fuel-free scan. -/
def b64ValueAux (c : Char) (i : Nat) : List Char → Option Nat
  | [] => none
  | a :: rest => if a = c then some i else b64ValueAux c (i + 1) rest

/-- The 6-bit value of a base64 digit. -/
def b64Value (c : Char) : Option Nat := b64ValueAux c 0 b64Alphabet

/-- Standard padded base64 of a byte sequence, as produced by
`FileReader.readAsDataURL` after the `data:` prefix (three bytes become
four digits; a short final group is completed with `=`). -/
def base64Encode : List Nat → List Char
  | [] => []
  | [b1] => [b64Char (b1 / 4), b64Char (b1 % 4 * 16), '=', '=']
  | [b1, b2] =>
      [b64Char (b1 / 4), b64Char (b1 % 4 * 16 + b2 / 16),
       b64Char (b2 % 16 * 4), '=']
  | b1 :: b2 :: b3 :: rest =>
      b64Char (b1 / 4) :: b64Char (b1 % 4 * 16 + b2 / 16) ::
      b64Char (b2 % 16 * 4 + b3 / 64) :: b64Char (b3 % 64) ::
      base64Encode rest

/-- The padding fix-up of `toBase64`: when the string length is not a
multiple of four, append `=` up to the next multiple of four. -/
def padBase64 (s : List Char) : List Char :=
  if s.length % 4 > 0 then s ++ List.replicate (4 - s.length % 4) '=' else s

/-- The `toBase64` helper of the API client, at the byte level: the
data-URL base64 of the file bytes with the prefix stripped, then the
padding fix-up. -/
def toBase64 (bytes : List Nat) : List Char := padBase64 (base64Encode bytes)

/-- The browser `atob` on padded input: decodes four digits to three
bytes, accepting `=` padding only in a final group, and failing (`none`,
modelling the thrown `InvalidCharacterError`) on any other shape. -/
def base64Decode : List Char → Option (List Nat)
  | [] => some []
  | c1 :: c2 :: c3 :: c4 :: rest =>
    if c3 = '=' ∧ c4 = '=' ∧ rest = [] then
      match b64Value c1, b64Value c2 with
      | some n1, some n2 => some [n1 * 4 + n2 / 16]
      | _, _ => none
    else if c4 = '=' ∧ rest = [] then
      match b64Value c1, b64Value c2, b64Value c3 with
      | some n1, some n2, some n3 =>
          some [n1 * 4 + n2 / 16, n2 % 16 * 16 + n3 / 4]
      | _, _, _ => none
    else
      match b64Value c1, b64Value c2, b64Value c3, b64Value c4,
            base64Decode rest with
      | some n1, some n2, some n3, some n4, some bs =>
          some ((n1 * 4 + n2 / 16) :: (n2 % 16 * 16 + n3 / 4) ::
                (n3 % 4 * 64 + n4) :: bs)
      | _, _, _, _, _ => none
  | _ => none

/-- The newline strip `content.replace(/\n/g, '')` applied before `atob`
in `handleEntryClick`. -/
def stripNewlines (s : List Char) : List Char := s.filter (fun c => c ≠ '\n')

/-- The client decode path of `handleEntryClick`, at the byte level:
strip newlines, `atob`, then read each code unit back as a byte (the
`charCodeAt` loop). The subsequent `TextDecoder` step consumes these
bytes as UTF-8. -/
def decodeContentBytes (content : List Char) : Option (List Nat) :=
  base64Decode (stripNewlines content)

/-! ## Repository creation (src/App.tsx, lines 132-146) -/

/-- The request body `handleCreateRepo` sends to `createRepo`. -/
def createRepoRequest (name : String) (isPrivate : Bool) : CreateRepoParams :=
  { name := name
    «private» := isPrivate
    description := some "Created via GitLite Mobile"
    auto_init := some true }

/-- The local list update of `handleCreateRepo` after a successful
`createRepo` call: `setRepos([newRepo, ...repos])`. -/
def handleCreateRepo (repos : List Repository) (newRepo : Repository) :
    List Repository :=
  newRepo :: repos

/-! ## Upload pipeline (src/components/FileExplorer.tsx, lines 95-135) -/

/-- One queued upload: the `File` object fields the loop reads
(`name`, `webkitRelativePath` — empty for a single-file pick — and the
byte content handed to `toBase64`). -/
structure QueuedFile where
  name : String
  webkitRelativePath : String
  bytes : List Nat
deriving DecidableEq, Repr

/-- The relative path of an uploaded file:
`file.webkitRelativePath || file.name` (the empty string is JS-falsy). -/
def uploadRelativePath (f : QueuedFile) : String :=
  if f.webkitRelativePath = "" then f.name else f.webkitRelativePath

/-- The final remote path of an uploaded file:
`currentPath ? ` `${currentPath}/${relativePath}` ` : relativePath`. -/
def uploadFinalPath (currentPath : String) (f : QueuedFile) : String :=
  if currentPath = "" then uploadRelativePath f
  else currentPath ++ "/" ++ uploadRelativePath f

/-- The commit message of an uploaded file:
`` `Add ${file.name} via GitLite` ``. -/
def uploadMessage (f : QueuedFile) : String :=
  "Add " ++ f.name ++ " via GitLite"

/-- The `createFile` request the upload loop issues for one file. -/
def uploadCommit (currentPath : String) (f : QueuedFile) : CommitParams :=
  { path := uploadFinalPath currentPath f
    message := uploadMessage f
    content := toBase64 f.bytes }

/-- Observable result of the upload loop: the commits that were applied,
the `createFile` calls that were issued, and the error of the first
failing call (surfaced by the `catch` as the alert), if any. -/
structure UploadOutcome where
  committed : List CommitParams
  attempted : List CommitParams
  error : Option String
deriving DecidableEq, Repr

/-- The sequential upload loop of `handleFileUpload`: each file is
converted and committed with `await` before the next is touched; the
first failure leaves the `for` loop through the surrounding `try`, so no
later file is attempted and the failure reaches the alert. The remote is
passed as the function `put`. -/
def handleFileUpload (put : CommitParams → Except String Unit)
    (currentPath : String) : List QueuedFile → UploadOutcome
  | [] => ⟨[], [], none⟩
  | f :: fs =>
    let p := uploadCommit currentPath f
    match put p with
    | Except.ok _ =>
      let r := handleFileUpload put currentPath fs
      ⟨p :: r.committed, p :: r.attempted, r.error⟩
    | Except.error e => ⟨[], [p], some e⟩

/-! ## Delete flow (src/components/FileExplorer.tsx, lines 137-158) -/

/-- The view-relevant state of `FileExplorer`: a set `selectedFile`
renders the file view (`ViewingFile`), an unset one the listing. -/
structure ExplorerState where
  currentPath : String
  entries : List FileEntry
  selectedFile : Option FileEntry
  loading : Bool
deriving DecidableEq, Repr

/-- The two user-visible view states of the browser. -/
inductive ViewState where
  | listing : ViewState
  | viewingFile : ViewState
deriving DecidableEq, Repr

/-- Which view an explorer state renders. -/
def ExplorerState.view (st : ExplorerState) : ViewState :=
  if st.selectedFile.isSome then ViewState.viewingFile else ViewState.listing

/-- Body and target of a `DELETE contents` call as `handleDelete` builds
it from the selected entry. -/
structure DeleteRequest where
  path : String
  sha : String
  message : String
deriving DecidableEq, Repr

/-- Result of the delete flow: the next state, the blocking alert (if
any), and whether a `fetchContents(currentPath)` re-fetch was issued. -/
structure DeleteOutcome where
  state : ExplorerState
  alert : Option String
  refetch : Bool
deriving DecidableEq, Repr

/-- The `handleDelete` flow: no-op without a selected file or without the
user's confirmation; otherwise issue `deleteFile` with the entry's
`path`, `sha` and a `Delete <name>` message. Success clears
`selectedFile` and re-fetches the current path (the transient
`loading := true` is the re-fetch in flight); failure alerts
`Delete failed: <message>` and only resets `loading`, leaving the
selection in place. -/
def handleDelete (remote : DeleteRequest → Except String Unit)
    (confirmed : Bool) (st : ExplorerState) : DeleteOutcome :=
  match st.selectedFile with
  | none => ⟨st, none, false⟩
  | some f =>
    if confirmed then
      match remote ⟨f.path, f.sha, "Delete " ++ f.name⟩ with
      | Except.ok _ =>
          ⟨{ st with selectedFile := none, loading := true }, none, true⟩
      | Except.error e =>
          ⟨{ st with loading := false }, some ("Delete failed: " ++ e), false⟩
    else ⟨st, none, false⟩

/-! ## Listing sort (src/components/FileExplorer.tsx, lines 47-53) -/

/-- The comparator of `fetchContents`, with the environment's
`localeCompare` collation passed explicitly as `lc` (negative, zero or
positive like the JS return value): folders first, then
`a.name.localeCompare(b.name)` within a kind. -/
def entryCmpWith (lc : String → String → Int) (a b : FileEntry) : Int :=
  if a.type = b.type then lc a.name b.name
  else if a.type = EntryType.dir then -1 else 1

/-- Insertion of one element into a comparator-sorted list, placing `x`
before the first element that compares greater. -/
def insertByCmp (c : α → α → Int) (x : α) : List α → List α
  | [] => [x]
  | y :: ys => if c x y < 0 then x :: y :: ys else y :: insertByCmp c x ys

/-- A comparator sort, modelling `Array.prototype.sort(comparator)` (which
guarantees a result ordered by the comparator). -/
def sortByCmp (c : α → α → Int) : List α → List α
  | [] => []
  | x :: xs => insertByCmp c x (sortByCmp c xs)

/-- The listing order `fetchContents` stores under the collation `lc`:
`data.sort((a, b) => ...)`. -/
def sortEntriesWith (lc : String → String → Int) (l : List FileEntry) :
    List FileEntry :=
  sortByCmp (entryCmpWith lc) l

/-- The pair order of a displayed listing under the collation `lc`: a
directory may precede anything of file kind, and same-kind neighbours
are non-decreasing under `lc`. -/
def ListingOrderedWith (lc : String → String → Int) (a b : FileEntry) : Prop :=
  (a.type = EntryType.dir ∧ b.type = EntryType.file) ∨
  (a.type = b.type ∧ lc a.name b.name ≤ 0)

/-- A locale-aware collation of the kind browsers implement for
`localeCompare` in common locales: names compare case-insensitively at
primary strength (so `apple.txt` orders before `Zebra.txt`), with
code-point order only as a tie-break. -/
def caseAwareCollate (x y : String) : Int :=
  let xf := x.data.map Char.toLower
  let yf := y.data.map Char.toLower
  if xf < yf then -1
  else if yf < xf then 1
  else if x.data < y.data then -1 else if y.data < x.data then 1 else 0

/-- The raw code-point collation — also a consistent comparator an
engine may present (names that differ case-insensitively aside, it
agrees with common collations on ASCII). -/
def codePointCompare (x y : String) : Int :=
  if x.data < y.data then -1 else if y.data < x.data then 1 else 0

/-! ## Helper lemmas -/

/-- Prepending a slash gives a string whose character data starts with a
slash. -/
theorem data_slash_append (p : String) : ("/" ++ p).data = '/' :: p.data := by
  simp [String.data_append]

/-- The sanitizer output never contains a JS-whitespace character,
whatever the previous-character flag. -/
theorem collapseWsAux_not_ws (l : List Char) :
    ∀ (b : Bool), ∀ x ∈ collapseWsAux b l, isJsWs x = false := by
  induction l with
  | nil => intro b x hx; simp [collapseWsAux] at hx
  | cons c rest ih =>
    intro b x hx
    rw [collapseWsAux] at hx
    by_cases h : isJsWs c = true
    · rw [if_pos h] at hx
      rcases List.mem_append.mp hx with h1 | h2
      · cases b with
        | true => simp at h1
        | false =>
          simp at h1
          subst h1
          decide
      · exact ih true x h2
    · rw [if_neg h] at hx
      simp only [Bool.not_eq_true] at h
      rcases List.mem_cons.mp hx with rfl | h2
      · exact h
      · exact ih false x h2

/-- The padded length is always a multiple of four. -/
theorem padBase64_length (s : List Char) : (padBase64 s).length % 4 = 0 := by
  unfold padBase64
  split
  · simp only [List.length_append, List.length_replicate]
    omega
  · omega

/-! ## Claim theorems -/

/-- C3: `getContents` strips a leading slash before dispatching: calling
it with `"/" ++ p` yields the same endpoint as calling it with `p` once
`p` carries no leading slash, and the two spec inputs `"/src/index.ts"`
and `"src/index.ts"` produce the identical cleaned remote path
`src/index.ts` and hence identical endpoints. -/
theorem getContents_strips_leading_slash :
    (∀ p : String, cleanPath ("/" ++ p) = p) ∧
    (∀ owner repo : String,
      getContentsEndpoint owner repo "/src/index.ts" =
        getContentsEndpoint owner repo "src/index.ts") ∧
    cleanPath "/src/index.ts" = "src/index.ts" ∧
    cleanPath "src/index.ts" = "src/index.ts" := by
  refine ⟨fun p => ?_, fun owner repo => rfl, rfl, rfl⟩
  show (⟨cleanPathChars ("/" ++ p).data⟩ : String) = p
  rw [data_slash_append]
  rfl

/-- C4 counterexample: for a non-2xx response with no parseable JSON
message and status 404, the raised message is not the generic string
`API Error: 404` the claim prescribes (the code prepends `GitHub `). -/
theorem githubErrorMessage_not_generic_404 :
    githubErrorMessage ⟨false, 404, none, none⟩ ≠ "API Error: 404" ∧
    githubErrorMessage ⟨false, 404, none, none⟩ = "GitHub API Error: 404" := by
  exact ⟨by decide, by decide⟩

/-- C4 amended: on every non-2xx response the client raises an error
whose message is the JSON body's `message` field when one is parseable
and non-empty, and otherwise — the body unparseable, the field absent,
or the field the (JS-falsy) empty string — is exactly the generic string
`GitHub API Error: <status>`. -/
theorem githubFetch_error_normalization (r : HttpResponse) :
    (r.jsonMessage = none →
      githubErrorMessage r = "GitHub API Error: " ++ toString r.status) ∧
    (r.jsonMessage = some "" →
      githubErrorMessage r = "GitHub API Error: " ++ toString r.status) ∧
    (∀ m, r.jsonMessage = some m → m ≠ "" → githubErrorMessage r = m) ∧
    (r.ok = false → githubFetch r = Except.error (githubErrorMessage r)) := by
  refine ⟨fun h => ?_, fun h => ?_, fun m hm hne => ?_, fun hok => ?_⟩
  · rw [githubErrorMessage, h]
  · rw [githubErrorMessage, h]
    simp
  · rw [githubErrorMessage, hm]
    simp [hne]
  · rw [githubFetch, hok]
    rfl

/-- C4 witness: the amended theorem applied to a parseless 404 response,
to a 500 response whose parsed body carries the empty message, and to a
422 response carrying a JSON message. -/
theorem githubFetch_error_normalization_witness :
    githubErrorMessage ⟨false, 404, none, none⟩ = "GitHub API Error: " ++ toString 404 ∧
    githubFetch ⟨false, 404, none, none⟩ =
      Except.error (githubErrorMessage ⟨false, 404, none, none⟩) ∧
    githubErrorMessage ⟨false, 500, some "", none⟩ =
      "GitHub API Error: " ++ toString 500 ∧
    githubErrorMessage ⟨false, 422, some "Invalid request.", none⟩ = "Invalid request." :=
  ⟨(githubFetch_error_normalization ⟨false, 404, none, none⟩).1 rfl,
   (githubFetch_error_normalization ⟨false, 404, none, none⟩).2.2.2 rfl,
   (githubFetch_error_normalization ⟨false, 500, some "", none⟩).2.1 rfl,
   (githubFetch_error_normalization ⟨false, 422, some "Invalid request.", none⟩).2.2.1
     "Invalid request." rfl (by decide)⟩

/-- C6 counterexample: the upload of a file named `foo.txt` issues its
`putFile` with message `Add foo.txt via GitLite`, not the claimed exact
message `Add foo.txt`. -/
theorem uploadMessage_not_bare_add :
    (uploadCommit "" ⟨"foo.txt", "", []⟩).message ≠ "Add foo.txt" ∧
    (uploadCommit "" ⟨"foo.txt", "", []⟩).message = "Add foo.txt via GitLite" := by
  exact ⟨by decide, rfl⟩

/-- C6 amended: every file uploaded through the pipeline issues its
`putFile` call with commit message exactly `Add <filename> via GitLite`,
where `<filename>` is the uploaded file's name. -/
theorem uploadCommit_message (currentPath : String) (f : QueuedFile) :
    (uploadCommit currentPath f).message = "Add " ++ f.name ++ " via GitLite" :=
  rfl

/-- C7: after a successful `createRepo` call the local list is the
previous list with the new repository prepended as its first entry, so
the updated listing contains an entry with the created name and privacy
flag. -/
theorem handleCreateRepo_prepends (repos : List Repository) (r : Repository)
    (n : String) (p : Bool) (hn : r.name = n) (hp : r.«private» = p) :
    handleCreateRepo repos r = r :: repos ∧
    (handleCreateRepo repos r).head? = some r ∧
    ∃ e ∈ handleCreateRepo repos r, e.name = n ∧ e.«private» = p :=
  ⟨rfl, rfl, r, List.mem_cons_self r repos, hn, hp⟩

/-- C7 witness: creating `demo` as a public repository and prepending it
to a one-element list. -/
theorem handleCreateRepo_prepends_witness :
    handleCreateRepo [⟨1, "old", "u/old", true, none⟩]
        ⟨2, "demo", "u/demo", false, none⟩ =
      [⟨2, "demo", "u/demo", false, none⟩, ⟨1, "old", "u/old", true, none⟩] ∧
    (handleCreateRepo [⟨1, "old", "u/old", true, none⟩]
        ⟨2, "demo", "u/demo", false, none⟩).head? =
      some ⟨2, "demo", "u/demo", false, none⟩ ∧
    ∃ e ∈ handleCreateRepo [⟨1, "old", "u/old", true, none⟩]
        ⟨2, "demo", "u/demo", false, none⟩,
      e.name = "demo" ∧ e.«private» = false :=
  handleCreateRepo_prepends [⟨1, "old", "u/old", true, none⟩]
    ⟨2, "demo", "u/demo", false, none⟩ "demo" false rfl rfl

/-- C9: the repository-name field sanitizer replaces every maximal
whitespace run by a single hyphen, so the stored name — and hence the
name sent to `createRepo` — never contains a whitespace character;
on `"my cool  repo"` it produces `"my-cool-repo"`. -/
theorem sanitizeRepoName_no_whitespace :
    (∀ s : String,
      (sanitizeRepoName s).data.all (fun c => !isJsWs c) = true) ∧
    sanitizeRepoName "my cool  repo" = "my-cool-repo" ∧
    sanitizeRepoName " a \t b " = "-a-b-" := by
  refine ⟨fun s => List.all_eq_true.mpr (fun x hx => ?_), by decide, by decide⟩
  simp [collapseWsAux_not_ws s.data false x hx]

/-- C10: the base64 string produced by `toBase64` always has length a
multiple of four; whenever the stripped string's length is not a
multiple of four, the padding fix-up appends exactly enough `=` signs to
reach the next multiple of four. -/
theorem toBase64_padding (s : List Char) (bytes : List Nat) :
    (padBase64 s).length % 4 = 0 ∧
    (s.length % 4 > 0 →
      padBase64 s = s ++ List.replicate (4 - s.length % 4) '=') ∧
    (toBase64 bytes).length % 4 = 0 := by
  refine ⟨padBase64_length s, fun h => ?_, padBase64_length (base64Encode bytes)⟩
  rw [padBase64, if_pos h]

/-- C10 witness: a two-character remainder `QQ` is padded with two `=`
signs, and `toBase64` of a one-byte file has length four. -/
theorem toBase64_padding_witness :
    ("QQ".data.length % 4 > 0) ∧
    padBase64 "QQ".data = "QQ".data ++ List.replicate (4 - "QQ".data.length % 4) '=' ∧
    (toBase64 [104]).length % 4 = 0 :=
  ⟨by decide, (toBase64_padding "QQ".data [104]).2.1 (by decide),
   (toBase64_padding "QQ".data [104]).2.2⟩

/-- C2: the upload loop commits strictly in queue order: when every file
of the prefix `before` succeeds and the next file `f` fails, the loop has
committed exactly the `before` commits in order, attempted exactly the
`before` commits plus the commit of `f`, left every file of `after`
unattempted, and surfaced the error of `f`'s own `putFile` call. -/
theorem handleFileUpload_sequential (put : CommitParams → Except String Unit)
    (currentPath : String) (before : List QueuedFile) (f : QueuedFile)
    (after : List QueuedFile) (e : String)
    (hok : ∀ g ∈ before, put (uploadCommit currentPath g) = Except.ok ())
    (herr : put (uploadCommit currentPath f) = Except.error e) :
    handleFileUpload put currentPath (before ++ f :: after) =
      ⟨before.map (uploadCommit currentPath),
       before.map (uploadCommit currentPath) ++ [uploadCommit currentPath f],
       some e⟩ := by
  induction before with
  | nil =>
    simp [handleFileUpload, herr]
  | cons g gs ih =>
    have hg : put (uploadCommit currentPath g) = Except.ok () :=
      hok g (List.mem_cons_self g gs)
    have ihgs := ih (fun x hx => hok x (List.mem_cons_of_mem g hx))
    simp [handleFileUpload, hg, ihgs]

/-- Fixture for the upload-sequencing witness: a remote that rejects the
commit for path `b.txt` and accepts every other commit. -/
def putStub : CommitParams → Except String Unit :=
  fun p => if p.path = "b.txt" then Except.error "Invalid request." else Except.ok ()

/-- Fixture: the three queued files of the spec's sequencing scenario,
of which the second fails under `putStub`. -/
def queueStub : List QueuedFile :=
  [⟨"a.txt", "", [97]⟩, ⟨"b.txt", "", [98]⟩, ⟨"c.txt", "", [99]⟩]

/-- C2 witness: three queued files where the second fails — the first is
committed, the third is never attempted, and the surfaced error is the
second file's failure. -/
theorem handleFileUpload_sequential_witness :
    handleFileUpload putStub "" queueStub =
      ⟨[uploadCommit "" ⟨"a.txt", "", [97]⟩],
       [uploadCommit "" ⟨"a.txt", "", [97]⟩, uploadCommit "" ⟨"b.txt", "", [98]⟩],
       some "Invalid request."⟩ :=
  handleFileUpload_sequential putStub "" [⟨"a.txt", "", [97]⟩]
    ⟨"b.txt", "", [98]⟩ [⟨"c.txt", "", [99]⟩] "Invalid request."
    (fun g hg => by rcases List.mem_singleton.mp hg with rfl; rfl) rfl

/-- C5: from the `ViewingFile` state, a confirmed delete whose remote
call fails (for example on a stale hash) leaves the selected file — and
with it the `ViewingFile` view, the current path and the listed entries —
untouched, surfaces the blocking `Delete failed:` alert, and issues no
re-fetch; a confirmed delete that succeeds clears the selection,
rendering the `Listing` view of the unchanged current path, and issues a
forced re-fetch. -/
theorem handleDelete_state (remote : DeleteRequest → Except String Unit)
    (st : ExplorerState) (f : FileEntry) (hf : st.selectedFile = some f) :
    (∀ e, remote ⟨f.path, f.sha, "Delete " ++ f.name⟩ = Except.error e →
      (handleDelete remote true st).state.selectedFile = some f ∧
      (handleDelete remote true st).state.view = ViewState.viewingFile ∧
      (handleDelete remote true st).state.currentPath = st.currentPath ∧
      (handleDelete remote true st).state.entries = st.entries ∧
      (handleDelete remote true st).alert = some ("Delete failed: " ++ e) ∧
      (handleDelete remote true st).refetch = false) ∧
    (remote ⟨f.path, f.sha, "Delete " ++ f.name⟩ = Except.ok () →
      (handleDelete remote true st).state.selectedFile = none ∧
      (handleDelete remote true st).state.view = ViewState.listing ∧
      (handleDelete remote true st).state.currentPath = st.currentPath ∧
      (handleDelete remote true st).refetch = true) := by
  refine ⟨fun e he => ?_, fun hok => ?_⟩
  · simp [handleDelete, hf, he, ExplorerState.view]
  · simp [handleDelete, hf, hok, ExplorerState.view]

/-- Fixture for the delete witness: the viewed file entry. -/
def viewedEntry : FileEntry :=
  ⟨"notes.txt", "docs/notes.txt", "abc123", 10, EntryType.file, none⟩

/-- Fixture for the delete witness: the `ViewingFile` explorer state. -/
def viewingState : ExplorerState := ⟨"docs", [viewedEntry], some viewedEntry, false⟩

/-- Fixture: a remote whose delete always fails with a conflict. -/
def remoteConflict : DeleteRequest → Except String Unit :=
  fun _ => Except.error "409 Conflict"

/-- Fixture: a remote whose delete always succeeds. -/
def remoteOk : DeleteRequest → Except String Unit := fun _ => Except.ok ()

/-- C5 witness: the delete theorem applied to a concrete `ViewingFile`
state, once against a conflicting remote and once against a succeeding
one. -/
theorem handleDelete_state_witness :
    ((handleDelete remoteConflict true viewingState).state.selectedFile =
        some viewedEntry ∧
      (handleDelete remoteConflict true viewingState).state.view =
        ViewState.viewingFile ∧
      (handleDelete remoteConflict true viewingState).state.currentPath =
        viewingState.currentPath ∧
      (handleDelete remoteConflict true viewingState).state.entries =
        viewingState.entries ∧
      (handleDelete remoteConflict true viewingState).alert =
        some ("Delete failed: " ++ "409 Conflict") ∧
      (handleDelete remoteConflict true viewingState).refetch = false) ∧
    ((handleDelete remoteOk true viewingState).state.selectedFile = none ∧
      (handleDelete remoteOk true viewingState).state.view = ViewState.listing ∧
      (handleDelete remoteOk true viewingState).state.currentPath =
        viewingState.currentPath ∧
      (handleDelete remoteOk true viewingState).refetch = true) :=
  ⟨(handleDelete_state remoteConflict viewingState viewedEntry rfl).1
      "409 Conflict" rfl,
   (handleDelete_state remoteOk viewingState viewedEntry rfl).2 rfl⟩

/-! ## Sort correctness (C1) -/

/-- Every entry kind is `dir` or `file`. -/
theorem entryType_dir_or_file (t : EntryType) :
    t = EntryType.dir ∨ t = EntryType.file := by
  cases t
  · exact Or.inr rfl
  · exact Or.inl rfl

/-- Members of an insertion are the inserted element or old members. -/
theorem mem_insertByCmp {c : α → α → Int} {x z : α} {l : List α}
    (h : z ∈ insertByCmp c x l) : z = x ∨ z ∈ l := by
  induction l with
  | nil => simpa [insertByCmp] using h
  | cons y ys ih =>
    rw [insertByCmp] at h
    split at h
    · rcases List.mem_cons.mp h with rfl | h2
      · exact Or.inl rfl
      · exact Or.inr h2
    · rcases List.mem_cons.mp h with rfl | h2
      · exact Or.inr (List.mem_cons_self z ys)
      · rcases ih h2 with h3 | h3
        · exact Or.inl h3
        · exact Or.inr (List.mem_cons_of_mem y h3)

/-- Sort-correctness core: if a negative comparison implies `R` forward,
a non-negative one implies `R` backward, and `R` is transitive, then
insertion preserves pairwise `R`. -/
theorem pairwise_insertByCmp {c : α → α → Int} {R : α → α → Prop}
    (hlt : ∀ a b, c a b < 0 → R a b)
    (hnlt : ∀ a b, ¬c a b < 0 → R b a)
    (htr : ∀ a b d, R a b → R b d → R a d)
    (x : α) (l : List α) (hl : l.Pairwise R) :
    (insertByCmp c x l).Pairwise R := by
  induction l with
  | nil => simp [insertByCmp]
  | cons y ys ih =>
    rcases List.pairwise_cons.mp hl with ⟨hy, hys⟩
    rw [insertByCmp]
    split
    · rename_i hl2
      have hxy := hlt x y hl2
      refine List.pairwise_cons.mpr ⟨?_, hl⟩
      intro z hz
      rcases List.mem_cons.mp hz with rfl | h2
      · exact hxy
      · exact htr x y z hxy (hy z h2)
    · rename_i hn
      have hyx := hnlt x y hn
      refine List.pairwise_cons.mpr ⟨?_, ih hys⟩
      intro z hz
      rcases mem_insertByCmp hz with rfl | h2
      · exact hyx
      · exact hy z h2

/-- The comparator sort yields a pairwise-`R`-ordered list, under the
same three comparator properties. -/
theorem pairwise_sortByCmp {c : α → α → Int} {R : α → α → Prop}
    (hlt : ∀ a b, c a b < 0 → R a b)
    (hnlt : ∀ a b, ¬c a b < 0 → R b a)
    (htr : ∀ a b d, R a b → R b d → R a d)
    (l : List α) : (sortByCmp c l).Pairwise R := by
  induction l with
  | nil => simp [sortByCmp]
  | cons x xs ih =>
    rw [sortByCmp]
    exact pairwise_insertByCmp hlt hnlt htr x _ ih

/-- A strictly negative entry comparison implies the listing pair order,
for any collation. -/
theorem listingOrderedWith_of_lt (lc : String → String → Int)
    {a b : FileEntry} (h : entryCmpWith lc a b < 0) :
    ListingOrderedWith lc a b := by
  unfold entryCmpWith at h
  by_cases ht : a.type = b.type
  · rw [if_pos ht] at h
    exact Or.inr ⟨ht, le_of_lt h⟩
  · rw [if_neg ht] at h
    rcases entryType_dir_or_file a.type with ha | ha
    · rcases entryType_dir_or_file b.type with hb | hb
      · exact absurd (ha.trans hb.symm) ht
      · exact Or.inl ⟨ha, hb⟩
    · rw [if_neg (ha ▸ (by simp) : ¬a.type = EntryType.dir)] at h
      exact absurd h (by norm_num)

/-- A non-negative entry comparison implies the listing pair order in
the reverse direction, provided the collation is sign-consistent. -/
theorem listingOrderedWith_of_not_lt (lc : String → String → Int)
    (hcons : ∀ x y, ¬lc x y < 0 → lc y x ≤ 0)
    {a b : FileEntry} (h : ¬entryCmpWith lc a b < 0) :
    ListingOrderedWith lc b a := by
  unfold entryCmpWith at h
  by_cases ht : a.type = b.type
  · rw [if_pos ht] at h
    exact Or.inr ⟨ht.symm, hcons a.name b.name h⟩
  · rw [if_neg ht] at h
    rcases entryType_dir_or_file a.type with ha | ha
    · rw [if_pos ha] at h
      exact absurd (by norm_num) h
    · rcases entryType_dir_or_file b.type with hb | hb
      · exact Or.inl ⟨hb, ha⟩
      · exact absurd (ha.trans hb.symm) ht

/-- The listing pair order is transitive, provided the collation is
transitive at non-positive values. -/
theorem listingOrderedWith_trans (lc : String → String → Int)
    (htrans : ∀ x y z, lc x y ≤ 0 → lc y z ≤ 0 → lc x z ≤ 0)
    {a b c : FileEntry} (h1 : ListingOrderedWith lc a b)
    (h2 : ListingOrderedWith lc b c) : ListingOrderedWith lc a c := by
  rcases h1 with ⟨ha, hb⟩ | ⟨hab, hn1⟩
  · rcases h2 with ⟨hb2, hc⟩ | ⟨hbc, _⟩
    · exact absurd (hb.symm.trans hb2) (by simp)
    · exact Or.inl ⟨ha, hbc.symm.trans hb⟩
  · rcases h2 with ⟨hb2, hc⟩ | ⟨hbc, hn2⟩
    · exact Or.inl ⟨hab.trans hb2, hc⟩
    · exact Or.inr ⟨hab.trans hbc, htrans _ _ _ hn1 hn2⟩

/-- Fixture for the collation counterexample: a file named with a
lowercase initial. -/
def appleEntry : FileEntry :=
  ⟨"apple.txt", "apple.txt", "sha-a", 1, EntryType.file, none⟩

/-- Fixture for the collation counterexample: a file named with an
uppercase initial. -/
def zebraEntry : FileEntry :=
  ⟨"Zebra.txt", "Zebra.txt", "sha-z", 1, EntryType.file, none⟩

/-- C1 counterexample: under a case-aware browser collation the fetched
pair `[Zebra.txt, apple.txt]` (both of file kind) is displayed as
`[apple.txt, Zebra.txt]` — an adjacent same-kind pair whose names are
strictly decreasing in lexicographic (code-point) order, since
`Z` (0x5A) precedes `a` (0x61); the claimed non-decreasing
lexicographic-by-name order fails on this listing. -/
theorem fetchContents_locale_counterexample :
    sortEntriesWith caseAwareCollate [zebraEntry, appleEntry] =
      [appleEntry, zebraEntry] ∧
    appleEntry.type = zebraEntry.type ∧
    ¬appleEntry.name.data ≤ zebraEntry.name.data ∧
    ¬(sortEntriesWith caseAwareCollate [zebraEntry, appleEntry]).Pairwise
      (fun a b => a.type = b.type → a.name.data ≤ b.name.data) := by
  refine ⟨by decide, by decide, by decide, ?_⟩
  intro hp
  have h2 : sortEntriesWith caseAwareCollate [zebraEntry, appleEntry] =
      [appleEntry, zebraEntry] := by decide
  rw [h2] at hp
  rcases List.pairwise_cons.mp hp with ⟨hz, _⟩
  exact absurd (hz zebraEntry (List.mem_cons_self zebraEntry []) (by decide))
    (by decide)

/-- C1 amended: for every collation `lc` the environment's
`localeCompare` may implement — any comparator that is sign-consistent
and transitive at non-positive values, as ECMAScript requires of a sort
comparator — the stored listing is pairwise ordered: no file-kind entry
ever precedes a dir-kind entry, and within each kind names are
non-decreasing under the collation `lc` itself (which, being
locale-aware, need not coincide with code-point lexicographic order). -/
theorem fetchContents_listing_sorted_locale (lc : String → String → Int)
    (hcons : ∀ x y, ¬lc x y < 0 → lc y x ≤ 0)
    (htrans : ∀ x y z, lc x y ≤ 0 → lc y z ≤ 0 → lc x z ≤ 0)
    (l : List FileEntry) :
    (sortEntriesWith lc l).Pairwise (ListingOrderedWith lc) ∧
    (sortEntriesWith lc l).Pairwise (fun a b =>
      (a.type = EntryType.file → b.type = EntryType.file) ∧
      (a.type = b.type → lc a.name b.name ≤ 0)) := by
  have hp : (sortEntriesWith lc l).Pairwise (ListingOrderedWith lc) := by
    unfold sortEntriesWith
    exact @pairwise_sortByCmp FileEntry (entryCmpWith lc) (ListingOrderedWith lc)
      (fun a b h => listingOrderedWith_of_lt lc h)
      (fun a b h => listingOrderedWith_of_not_lt lc hcons h)
      (fun a b d h1 h2 => listingOrderedWith_trans lc htrans h1 h2) l
  refine ⟨hp, List.Pairwise.imp ?_ hp⟩
  intro a b hab
  rcases hab with ⟨ha, hb⟩ | ⟨hab2, hn⟩
  · refine ⟨fun haf => absurd (haf.symm.trans ha) (by simp), ?_⟩
    intro ht
    exact absurd (ht.symm.trans ha) (hb ▸ (by simp))
  · exact ⟨fun haf => hab2.symm.trans haf, fun _ => hn⟩

/-- The code-point collation compares non-positively exactly on ordered
name data. -/
theorem codePointCompare_le {x y : String} :
    codePointCompare x y ≤ 0 ↔ x.data ≤ y.data := by
  unfold codePointCompare
  by_cases h1 : x.data < y.data
  · simp [h1, le_of_lt h1]
  · rw [if_neg h1]
    by_cases h2 : y.data < x.data
    · rw [if_pos h2]
      constructor
      · intro h
        exact absurd h (by norm_num)
      · intro h
        exact absurd h2 (not_lt_of_le h)
    · rw [if_neg h2]
      constructor
      · intro _
        exact le_of_not_lt h2
      · intro _
        norm_num

/-- The code-point collation is sign-consistent. -/
theorem codePointCompare_consistent (x y : String) :
    ¬codePointCompare x y < 0 → codePointCompare y x ≤ 0 := by
  intro h
  apply codePointCompare_le.mpr
  by_contra hxy
  have hlt : x.data < y.data := lt_of_not_le hxy
  apply h
  unfold codePointCompare
  rw [if_pos hlt]
  norm_num

/-- The code-point collation is transitive at non-positive values. -/
theorem codePointCompare_le_trans (x y z : String) :
    codePointCompare x y ≤ 0 → codePointCompare y z ≤ 0 →
    codePointCompare x z ≤ 0 := by
  intro h1 h2
  exact codePointCompare_le.mpr
    (le_trans (codePointCompare_le.mp h1) (codePointCompare_le.mp h2))

/-- Fixture for the sorted-listing witness: a mixed fetched listing. -/
def listingStub : List FileEntry :=
  [⟨"b.txt", "b.txt", "s1", 0, EntryType.file, none⟩,
   ⟨"src", "src", "s2", 0, EntryType.dir, none⟩,
   ⟨"a.txt", "a.txt", "s3", 0, EntryType.file, none⟩]

/-- C1 witness: the amended theorem applied to the code-point collation
(a consistent comparator) and a concrete mixed listing. -/
theorem fetchContents_listing_sorted_locale_witness :
    (sortEntriesWith codePointCompare listingStub).Pairwise
      (ListingOrderedWith codePointCompare) ∧
    (sortEntriesWith codePointCompare listingStub).Pairwise (fun a b =>
      (a.type = EntryType.file → b.type = EntryType.file) ∧
      (a.type = b.type → codePointCompare a.name b.name ≤ 0)) :=
  fetchContents_listing_sorted_locale codePointCompare
    codePointCompare_consistent codePointCompare_le_trans listingStub

/-! ## Base64 round trip (C8) -/

/-- Every base64 digit is an alphabet character. -/
theorem b64Char_mem (n : Nat) : b64Char n ∈ b64Alphabet := by
  unfold b64Char
  rcases lt_or_ge n b64Alphabet.length with h | h
  · rw [List.getD_eq_getElem b64Alphabet 'A' h]
    exact List.getElem_mem h
  · rw [List.getD_eq_default b64Alphabet 'A' h]
    decide

/-- No base64 digit is the padding sign. -/
theorem b64Char_ne_pad (n : Nat) : b64Char n ≠ '=' := by
  intro h
  have hm := b64Char_mem n
  rw [h] at hm
  exact absurd hm (by decide)

/-- Decoding a base64 digit recovers its 6-bit value. -/
theorem b64Value_b64Char : ∀ n < 64, b64Value (b64Char n) = some n := by decide

/-- The encoder output length is a multiple of four. -/
theorem base64Encode_length (bs : List Nat) :
    (base64Encode bs).length % 4 = 0 := by
  induction bs using base64Encode.induct with
  | case1 => rfl
  | case2 b1 => simp [base64Encode]
  | case3 b1 b2 => simp [base64Encode]
  | case4 b1 b2 b3 rest ih =>
    rw [base64Encode]
    simp only [List.length_cons]
    omega

/-- The padding fix-up leaves the (already padded) encoder output
unchanged. -/
theorem padBase64_base64Encode (bs : List Nat) :
    padBase64 (base64Encode bs) = base64Encode bs := by
  have h := base64Encode_length bs
  rw [padBase64, if_neg (by omega)]

/-- Every encoder output character is an alphabet character or the
padding sign. -/
theorem base64Encode_mem (bs : List Nat) :
    ∀ c ∈ base64Encode bs, c ∈ b64Alphabet ∨ c = '=' := by
  induction bs using base64Encode.induct with
  | case1 =>
    intro c hc
    simp [base64Encode] at hc
  | case2 b1 =>
    intro c hc
    simp only [base64Encode, List.mem_cons, List.not_mem_nil, or_false] at hc
    rcases hc with rfl | rfl | rfl | rfl
    · exact Or.inl (b64Char_mem _)
    · exact Or.inl (b64Char_mem _)
    · exact Or.inr rfl
    · exact Or.inr rfl
  | case3 b1 b2 =>
    intro c hc
    simp only [base64Encode, List.mem_cons, List.not_mem_nil, or_false] at hc
    rcases hc with rfl | rfl | rfl | rfl
    · exact Or.inl (b64Char_mem _)
    · exact Or.inl (b64Char_mem _)
    · exact Or.inl (b64Char_mem _)
    · exact Or.inr rfl
  | case4 b1 b2 b3 rest ih =>
    intro c hc
    simp only [base64Encode, List.mem_cons] at hc
    rcases hc with rfl | rfl | rfl | rfl | hm
    · exact Or.inl (b64Char_mem _)
    · exact Or.inl (b64Char_mem _)
    · exact Or.inl (b64Char_mem _)
    · exact Or.inl (b64Char_mem _)
    · exact ih c hm

/-- The newline strip of the decode path leaves the encoder output
unchanged. -/
theorem stripNewlines_base64Encode (bs : List Nat) :
    stripNewlines (base64Encode bs) = base64Encode bs := by
  unfold stripNewlines
  apply List.filter_eq_self.mpr
  intro a ha
  rw [decide_eq_true_eq]
  rcases base64Encode_mem bs a ha with hm | rfl
  · intro heq
    rw [heq] at hm
    exact absurd hm (by decide)
  · decide

/-- Decoding the encoder output recovers the original bytes. -/
theorem base64Decode_base64Encode (bs : List Nat) :
    (∀ b ∈ bs, b < 256) → base64Decode (base64Encode bs) = some bs := by
  induction bs using base64Encode.induct with
  | case1 => intro h; rfl
  | case2 b1 =>
    intro h
    have hb1 : b1 < 256 := h b1 (by simp)
    rw [base64Encode, base64Decode, if_pos ⟨rfl, rfl, rfl⟩,
        b64Value_b64Char _ (by omega), b64Value_b64Char _ (by omega)]
    simp
    omega
  | case3 b1 b2 =>
    intro h
    have hb1 : b1 < 256 := h b1 (by simp)
    have hb2 : b2 < 256 := h b2 (by simp)
    rw [base64Encode, base64Decode,
        if_neg (fun hc => b64Char_ne_pad _ hc.1), if_pos ⟨rfl, rfl⟩,
        b64Value_b64Char _ (by omega), b64Value_b64Char _ (by omega),
        b64Value_b64Char _ (by omega)]
    simp
    omega
  | case4 b1 b2 b3 rest ih =>
    intro h
    have hb1 : b1 < 256 := h b1 (by simp)
    have hb2 : b2 < 256 := h b2 (by simp)
    have hb3 : b3 < 256 := h b3 (by simp)
    have ihr := ih (fun x hx => h x (by simp [hx]))
    rw [base64Encode, base64Decode,
        if_neg (fun hc => b64Char_ne_pad _ hc.1),
        if_neg (fun hc => b64Char_ne_pad _ hc.1),
        b64Value_b64Char _ (by omega), b64Value_b64Char _ (by omega),
        b64Value_b64Char _ (by omega), b64Value_b64Char _ (by omega), ihr]
    simp
    omega

/-- C8: for every byte sequence (hence for the UTF-8 bytes of any text
content), encoding through the client encode path `toBase64` and
decoding through the client decode path (newline strip, `atob`,
code-unit read-back) yields the original bytes. -/
theorem toBase64_roundtrip (bytes : List Nat) (h : ∀ b ∈ bytes, b < 256) :
    decodeContentBytes (toBase64 bytes) = some bytes := by
  unfold decodeContentBytes toBase64
  rw [padBase64_base64Encode, stripNewlines_base64Encode,
      base64Decode_base64Encode bytes h]

/-- C8 witness: the round trip on the UTF-8 bytes of the text `hi!é`
(a full three-byte group followed by a two-byte tail). -/
theorem toBase64_roundtrip_witness :
    (∀ b ∈ [104, 105, 33, 195, 169], b < 256) ∧
    decodeContentBytes (toBase64 [104, 105, 33, 195, 169]) =
      some [104, 105, 33, 195, 169] :=
  ⟨by decide, toBase64_roundtrip [104, 105, 33, 195, 169] (by decide)⟩

end GitLite
